import Mathlib

/-!
Verification of the conversion driver in `MODEL_CONVERTER.py`.

The script is a linear driver around five external library calls
(`onnx.load`, `version_converter.convert_version`, `onnxsim.simplify`,
`onnx.checker.check_model`, `onnx.save`) plus `os.path.getsize`.
We embed the driver shallowly: the external calls are fields of an
environment `Env`, each returning `Except PyErr _` (an exception or a
value), and a run of the driver produces a result together with a trace
of events (console prints and external calls, in order).
-/

/-- Kinds of Python exceptions relevant to the script: the `IndexError`
from `model.opset_import[0]` on an empty list, the `ValueError` from
`int(sys.argv[3])` on a non-numeric string, and arbitrary exceptions
raised by the external libraries (identified by a tag). -/
inductive PyErr where
  | indexError : PyErr
  | valueError : String → PyErr
  | exc : String → PyErr
  deriving DecidableEq, Repr

/-- One entry of a model's `opset_import` list (ONNX `OperatorSetIdProto`):
a domain string and a version integer.  The script reads only `version`
of the first entry. -/
structure OpsetEntry where
  domain : String
  version : Int
  deriving DecidableEq, Repr

/-- The in-memory model.  The script inspects only `opset_import`; the
rest of the graph is opaque to it and is represented by an abstract
`payload` so that distinct models can be distinguished. -/
structure Model where
  opset_import : List OpsetEntry
  payload : Nat
  deriving DecidableEq, Repr

/-- Observable events of a run, in program order: each `print` of the
script and each external call, with the arguments the script passed. -/
inductive Event where
  | printLoading : String → Event
  | loadCall : String → Event
  | printCurrentOpset : Int → Event
  | printConverting : Int → Event
  | convertCall : Model → Int → Event
  | printSimplifying : Event
  | simplifyCall : Model → Event
  | printSimplifyOk : Event
  | printSimplifyCheckFailed : Event
  | warnSimplifyError : PyErr → Event
  | printContinuingUnsimplified : Event
  | printValidating : Event
  | checkCall : Model → Event
  | printValid : Event
  | warnValidationError : PyErr → Event
  | printSaving : String → Event
  | saveCall : Model → String → Event
  | getsizeCall : String → Event
  | printStats : Nat → Nat → Int → Event
  | printNextSteps : String → Event
  | printUsage : Event
  | printTopError : PyErr → Event
  deriving DecidableEq, Repr

/-- The behaviour of the external libraries for one run: each field is
one of the delegated routines the script calls, returning either a value
or a raised exception. -/
structure Env where
  load : String → Except PyErr Model
  convert_version : Model → Int → Except PyErr Model
  simplify : Model → Except PyErr (Model × Bool)
  check_model : Model → Except PyErr Unit
  save : Model → String → Except PyErr Unit
  getsize : String → Except PyErr Nat

/-- Lines 36-38: the version-conversion step.  If the current opset
exceeds the target, `version_converter.convert_version` is invoked with
the target; otherwise the model passes through untouched. -/
def versionStage (env : Env) (target_opset : Int) (model : Model)
    (current_opset : Int) : Except PyErr Model × List Event :=
  if current_opset > target_opset then
    match env.convert_version model target_opset with
    | Except.ok m =>
        (Except.ok m, [Event.printConverting target_opset, Event.convertCall model target_opset])
    | Except.error e =>
        (Except.error e, [Event.printConverting target_opset, Event.convertCall model target_opset])
  else (Except.ok model, [])

/-- Lines 41-55: the simplification step.  `onnxsim.simplify` is called
inside `try/except`: on success the (possibly rebound) model and check
flag are used, a failed check only prints a warning; on exception the
pre-simplification model is kept.  This stage never raises. -/
def simplifyStage (env : Env) (model : Model) : Model × List Event :=
  match env.simplify model with
  | Except.ok (m, check) =>
      (m, [Event.printSimplifying, Event.simplifyCall model,
           if check then Event.printSimplifyOk else Event.printSimplifyCheckFailed])
  | Except.error e =>
      (model, [Event.printSimplifying, Event.simplifyCall model,
               Event.warnSimplifyError e, Event.printContinuingUnsimplified])

/-- Lines 58-63: the validation step.  `onnx.checker.check_model` is
called inside `try/except`; an exception prints a warning only.  This
stage never raises and never changes the model. -/
def validateStage (env : Env) (model : Model) : List Event :=
  match env.check_model model with
  | Except.ok _ => [Event.printValidating, Event.checkCall model, Event.printValid]
  | Except.error e => [Event.printValidating, Event.checkCall model, Event.warnValidationError e]

/-- Lines 66-67: the save step.  `onnx.save` is called outside any
`try/except`, so its exception propagates. -/
def saveStage (env : Env) (model : Model) (output_path : String) :
    Except PyErr Unit × List Event :=
  match env.save model output_path with
  | Except.ok _ => (Except.ok (), [Event.printSaving output_path, Event.saveCall model output_path])
  | Except.error e =>
      (Except.error e, [Event.printSaving output_path, Event.saveCall model output_path])

/-- Lines 70-84: the size-report step.  `os.path.getsize` is called on
both paths outside any `try/except`; on success the statistics and the
next-steps text are printed. -/
def statsStage (env : Env) (input_path output_path : String) (target_opset : Int) :
    Except PyErr Unit × List Event :=
  match env.getsize input_path with
  | Except.error e => (Except.error e, [Event.getsizeCall input_path])
  | Except.ok insz =>
      match env.getsize output_path with
      | Except.error e =>
          (Except.error e, [Event.getsizeCall input_path, Event.getsizeCall output_path])
      | Except.ok outsz =>
          (Except.ok (), [Event.getsizeCall input_path, Event.getsizeCall output_path,
                          Event.printStats insz outsz target_opset,
                          Event.printNextSteps output_path])

/-- Lines 20-84: `convert_model(input_path, output_path, target_opset)`.
Loads the model, reads `model.opset_import[0].version` (an `IndexError`
if the list is empty), runs the version-conversion, simplification,
validation, save and size-report steps in order.  Returns the final
result (raised exception or normal return) and the event trace. -/
def convert_model (env : Env) (input_path output_path : String)
    (target_opset : Int) : Except PyErr Unit × List Event :=
  let t0 : List Event := [Event.printLoading input_path, Event.loadCall input_path]
  match env.load input_path with
  | Except.error e => (Except.error e, t0)
  | Except.ok model0 =>
    match model0.opset_import with
    | [] => (Except.error PyErr.indexError, t0)
    | entry :: _ =>
      let t1 := t0 ++ [Event.printCurrentOpset entry.version]
      match versionStage env target_opset model0 entry.version with
      | (Except.error e, tv) => (Except.error e, t1 ++ tv)
      | (Except.ok model1, tv) =>
        let st := simplifyStage env model1
        let tc := validateStage env st.1
        match saveStage env st.1 output_path with
        | (Except.error e, tw) => (Except.error e, t1 ++ tv ++ st.2 ++ tc ++ tw)
        | (Except.ok _, tw) =>
          match statsStage env input_path output_path target_opset with
          | (r, tz) => (r, t1 ++ tv ++ st.2 ++ tc ++ tw ++ tz)

/-- Whitespace characters Python's `int()` strips from a string. -/
def isPySpace (c : Char) : Bool :=
  c = ' ' || c = '\t' || c = '\n' || c = '\r' || c = '\x0b' || c = '\x0c'

/-- Strips leading and trailing whitespace from a character list. -/
def stripPySpace (cs : List Char) : List Char :=
  ((cs.dropWhile isPySpace).reverse.dropWhile isPySpace).reverse

/-- Value of a list of decimal digit characters. -/
def digitsVal (cs : List Char) : Nat :=
  cs.foldl (fun n c => 10 * n + (c.toNat - 48)) 0

/-- A nonempty all-digit character list parses to its value. -/
def pyIntOfDigits (cs : List Char) : Option Nat :=
  if cs = [] then none
  else if cs.all Char.isDigit then some (digitsVal cs) else none

/-- The model of Python's `int(s)` on line 95 for a decimal string
literal: optional surrounding whitespace, optional sign, decimal digits;
`none` when the string is not parseable (Python raises `ValueError`). -/
def pyInt? (s : String) : Option Int :=
  match stripPySpace s.data with
  | [] => none
  | c :: rest =>
    if c = '+' then (pyIntOfDigits rest).map Int.ofNat
    else if c = '-' then (pyIntOfDigits rest).map fun n => -(Int.ofNat n)
    else (pyIntOfDigits (c :: rest)).map Int.ofNat

/-- How a process run terminates: `exited c` is an explicit or implicit
exit with code `c`; `uncaught e` is termination by an exception that
escaped the script entirely (Python prints a traceback and the
interpreter exits). -/
inductive Outcome where
  | exited : Nat → Outcome
  | uncaught : PyErr → Outcome
  deriving DecidableEq, Repr

/-- Lines 86-101: the `__main__` block.  `argv` is the full `sys.argv`
including the program name.  Fewer than 3 entries prints usage and exits
1; otherwise the third positional argument (when present) is parsed by
`int()` outside the `try`, so a parse failure escapes uncaught; then
`convert_model` runs inside `try/except Exception`, an exception
printing an error and exiting 1, and falling off the end exits 0. -/
def pyMain (env : Env) (argv : List String) : Outcome × List Event :=
  if argv.length < 3 then (Outcome.exited 1, [Event.printUsage])
  else
    let input_path := argv.getD 1 ""
    let output_path := argv.getD 2 ""
    if argv.length > 3 then
      match pyInt? (argv.getD 3 "") with
      | none => (Outcome.uncaught (PyErr.valueError (argv.getD 3 "")), [])
      | some target_opset =>
          match convert_model env input_path output_path target_opset with
          | (Except.ok _, t) => (Outcome.exited 0, t)
          | (Except.error e, t) => (Outcome.exited 1, t ++ [Event.printTopError e])
    else
      match convert_model env input_path output_path 14 with
      | (Except.ok _, t) => (Outcome.exited 0, t)
      | (Except.error e, t) => (Outcome.exited 1, t ++ [Event.printTopError e])

/-- Recognizer for version-conversion call events, used to count how
often `version_converter.convert_version` was invoked in a trace. -/
def isConvertCall : Event → Bool
  | Event.convertCall _ _ => true
  | _ => false

/-- Recognizer for save call events, used to count how often `onnx.save`
was invoked (the only write to the output path the driver performs). -/
def isSaveCall : Event → Bool
  | Event.saveCall _ _ => true
  | _ => false

/-- A concrete opset entry of version 17 (above the default target 14). -/
def entry17 : OpsetEntry := { domain := "", version := 17 }

/-- A concrete opset entry of version 12 (below the default target 14). -/
def entry12 : OpsetEntry := { domain := "", version := 12 }

/-- A concrete model declaring opset 17. -/
def model17 : Model := { opset_import := [entry17], payload := 0 }

/-- A concrete model declaring opset 12. -/
def model12 : Model := { opset_import := [entry12], payload := 1 }

/-- A concrete environment in which every external call succeeds: `load`
returns `model17`, conversion rewrites the opset list to the target,
simplification returns a fresh model with the check flag true. -/
def okEnv : Env where
  load := fun _ => Except.ok model17
  convert_version := fun m v =>
    Except.ok { opset_import := [{ domain := "", version := v }], payload := m.payload + 100 }
  simplify := fun m => Except.ok ({ m with payload := m.payload + 1000 }, true)
  check_model := fun _ => Except.ok ()
  save := fun _ _ => Except.ok ()
  getsize := fun _ => Except.ok 1048576

/-- Like `okEnv` but `load` returns the opset-12 model. -/
def okEnv12 : Env := { okEnv with load := fun _ => Except.ok model12 }

theorem filter_convert_simplifyStage (env : Env) (m : Model) :
    List.filter isConvertCall (simplifyStage env m).2 = [] := by
  unfold simplifyStage
  cases h : env.simplify m with
  | error e => simp [isConvertCall]
  | ok p =>
    rcases p with ⟨m2, check⟩
    cases check <;> simp [isConvertCall]

theorem filter_convert_validateStage (env : Env) (m : Model) :
    List.filter isConvertCall (validateStage env m) = [] := by
  unfold validateStage
  cases h : env.check_model m <;> simp [isConvertCall]

theorem filter_convert_saveStage (env : Env) (m : Model) (p : String) :
    List.filter isConvertCall (saveStage env m p).2 = [] := by
  unfold saveStage
  cases h : env.save m p <;> simp [isConvertCall]

theorem filter_convert_statsStage (env : Env) (ip op : String) (v : Int) :
    List.filter isConvertCall (statsStage env ip op v).2 = [] := by
  unfold statsStage
  cases h : env.getsize ip with
  | error e => simp [isConvertCall]
  | ok a => cases h2 : env.getsize op <;> simp [isConvertCall]

theorem simplifyCall_mem_simplifyStage (env : Env) (m : Model) :
    Event.simplifyCall m ∈ (simplifyStage env m).2 := by
  unfold simplifyStage
  cases h : env.simplify m with
  | error e => simp
  | ok p =>
    rcases p with ⟨m2, check⟩
    cases check <;> simp

theorem convertFree_of_le
    (env : Env) (ip op : String) (target : Int)
    (m : Model) (e : OpsetEntry) (r : List OpsetEntry)
    (hload : env.load ip = Except.ok m)
    (hops : m.opset_import = e :: r)
    (hle : e.version ≤ target) :
    List.filter isConvertCall (convert_model env ip op target).2 = [] ∧
    Event.simplifyCall m ∈ (convert_model env ip op target).2 := by
  have hnot : ¬ e.version > target := not_lt.mpr hle
  simp only [convert_model, hload, hops, versionStage, if_neg hnot]
  cases hsv : saveStage env (simplifyStage env m).1 op with
  | mk rs tw =>
    cases rs with
    | error e2 =>
      simp only [List.filter_append, filter_convert_simplifyStage,
        filter_convert_validateStage]
      constructor
      · have := filter_convert_saveStage env (simplifyStage env m).1 op
        rw [hsv] at this
        simp [isConvertCall, this]
      · simp [simplifyCall_mem_simplifyStage]
    | ok u =>
      cases hst : statsStage env ip op target with
      | mk rz tz =>
        constructor
        · have h1 := filter_convert_saveStage env (simplifyStage env m).1 op
          rw [hsv] at h1
          have h2 := filter_convert_statsStage env ip op target
          rw [hst] at h2
          simp [List.filter_append, filter_convert_simplifyStage,
            filter_convert_validateStage, h1, h2, isConvertCall]
        · simp [simplifyCall_mem_simplifyStage]

/-- C1: when the declared opset (first entry of `opset_import`) is at
most the target, the version-conversion routine is never called and the
loaded model itself is the one passed to simplification. -/
theorem convert_skipped_when_opset_le_target
    (env : Env) (ip op : String) (target : Int)
    (m : Model) (e : OpsetEntry) (r : List OpsetEntry)
    (hload : env.load ip = Except.ok m)
    (hops : m.opset_import = e :: r)
    (hle : e.version <= target) :
    List.filter isConvertCall (convert_model env ip op target).2 = [] /\
    Event.simplifyCall m ∈ (convert_model env ip op target).2 :=
  convertFree_of_le env ip op target m e r hload hops hle

/-- C1 witness: in the all-success environment whose loaded model
declares opset 12 and target 14, the conversion call is absent and the
loaded model reaches simplification. -/
theorem convert_skipped_witness :
    List.filter isConvertCall (convert_model okEnv12 "in.onnx" "out.onnx" 14).2 = [] ∧
    Event.simplifyCall model12 ∈ (convert_model okEnv12 "in.onnx" "out.onnx" 14).2 :=
  convert_skipped_when_opset_le_target okEnv12 "in.onnx" "out.onnx" 14
    model12 entry12 [] rfl rfl (by decide)

theorem convertOnce_of_gt
    (env : Env) (ip op : String) (target : Int)
    (m : Model) (e : OpsetEntry) (r : List OpsetEntry)
    (hload : env.load ip = Except.ok m)
    (hops : m.opset_import = e :: r)
    (hgt : e.version > target) :
    List.filter isConvertCall (convert_model env ip op target).2
      = [Event.convertCall m target] := by
  simp only [convert_model, hload, hops, versionStage, if_pos hgt]
  cases hcv : env.convert_version m target with
  | error e2 => simp [isConvertCall]
  | ok m1 =>
    dsimp only
    cases hsv : saveStage env (simplifyStage env m1).1 op with
    | mk rs tw =>
      cases rs with
      | error e2 =>
        have h1 := filter_convert_saveStage env (simplifyStage env m1).1 op
        rw [hsv] at h1
        simp [List.filter_append, filter_convert_simplifyStage,
          filter_convert_validateStage, h1, isConvertCall]
      | ok u =>
        cases hst : statsStage env ip op target with
        | mk rz tz =>
          have h1 := filter_convert_saveStage env (simplifyStage env m1).1 op
          rw [hsv] at h1
          have h2 := filter_convert_statsStage env ip op target
          rw [hst] at h2
          simp [List.filter_append, filter_convert_simplifyStage,
            filter_convert_validateStage, h1, h2, isConvertCall]

/-- C2: when the declared opset strictly exceeds the target, the trace
holds exactly one version-conversion call, on the loaded model with
exactly the target opset as its version argument. -/
theorem convert_invoked_once_when_opset_gt_target
    (env : Env) (ip op : String) (target : Int)
    (m : Model) (e : OpsetEntry) (r : List OpsetEntry)
    (hload : env.load ip = Except.ok m)
    (hops : m.opset_import = e :: r)
    (hgt : e.version > target) :
    List.filter isConvertCall (convert_model env ip op target).2
      = [Event.convertCall m target] :=
  convertOnce_of_gt env ip op target m e r hload hops hgt

/-- C2 witness: in the all-success environment with a loaded opset-17
model and target 14, exactly one conversion call occurs, with 14. -/
theorem convert_invoked_once_witness :
    List.filter isConvertCall (convert_model okEnv "in.onnx" "out.onnx" 14).2
      = [Event.convertCall model17 14] :=
  convert_invoked_once_when_opset_gt_target okEnv "in.onnx" "out.onnx" 14
    model17 entry17 [] rfl rfl (by decide)

theorem filter_save_versionStage (env : Env) (target : Int) (m : Model) (v : Int) :
    List.filter isSaveCall (versionStage env target m v).2 = [] := by
  unfold versionStage
  by_cases h : v > target
  · rw [if_pos h]
    cases hc : env.convert_version m target <;> simp [isSaveCall]
  · rw [if_neg h]
    simp

theorem filter_save_simplifyStage (env : Env) (m : Model) :
    List.filter isSaveCall (simplifyStage env m).2 = [] := by
  unfold simplifyStage
  cases h : env.simplify m with
  | error e => simp [isSaveCall]
  | ok p =>
    rcases p with ⟨m2, check⟩
    cases check <;> simp [isSaveCall]

theorem filter_save_validateStage (env : Env) (m : Model) :
    List.filter isSaveCall (validateStage env m) = [] := by
  unfold validateStage
  cases h : env.check_model m <;> simp [isSaveCall]

theorem filter_save_saveStage (env : Env) (m : Model) (p : String) :
    List.filter isSaveCall (saveStage env m p).2 = [Event.saveCall m p] := by
  unfold saveStage
  cases h : env.save m p <;> simp [isSaveCall]

theorem filter_save_statsStage (env : Env) (ip op : String) (v : Int) :
    List.filter isSaveCall (statsStage env ip op v).2 = [] := by
  unfold statsStage
  cases h : env.getsize ip with
  | error e => simp [isSaveCall]
  | ok a => cases h2 : env.getsize op <;> simp [isSaveCall]

/-- C3: when `onnxsim.simplify` raises, the exception is caught, a
warning is traced, and validation and save both receive the
pre-simplification model; with the later steps succeeding the run
returns normally, so the simplification failure alone never aborts it. -/
theorem simplify_failure_recovered
    (env : Env) (ip op : String) (target : Int)
    (m : Model) (e : OpsetEntry) (r : List OpsetEntry)
    (m1 : Model) (tv : List Event) (err : PyErr) (a b : Nat)
    (hload : env.load ip = Except.ok m)
    (hops : m.opset_import = e :: r)
    (hver : versionStage env target m e.version = (Except.ok m1, tv))
    (hsimp : env.simplify m1 = Except.error err)
    (hsave : env.save m1 op = Except.ok ())
    (hszi : env.getsize ip = Except.ok a)
    (hszo : env.getsize op = Except.ok b) :
    (convert_model env ip op target).1 = Except.ok () ∧
    Event.warnSimplifyError err ∈ (convert_model env ip op target).2 ∧
    Event.checkCall m1 ∈ (convert_model env ip op target).2 ∧
    Event.saveCall m1 op ∈ (convert_model env ip op target).2 := by
  simp only [convert_model, hload, hops, hver, simplifyStage, hsimp,
    saveStage, hsave, statsStage, hszi, hszo]
  cases hchk : env.check_model m1 <;> simp [validateStage, hchk]

/-- A model as produced by `okEnv.convert_version` on `model17` with
target 14. -/
def model14c : Model := { opset_import := [{ domain := "", version := 14 }], payload := 100 }

/-- Like `okEnv` but simplification always raises. -/
def envSimpFail : Env :=
  { okEnv with simplify := fun _ => Except.error (PyErr.exc "simplify boom") }

/-- C3 witness: with simplification raising and everything else
succeeding, the run returns normally and validation and save receive the
pre-simplification model. -/
theorem simplify_failure_witness :
    (convert_model envSimpFail "in.onnx" "out.onnx" 14).1 = Except.ok () ∧
    Event.warnSimplifyError (PyErr.exc "simplify boom")
      ∈ (convert_model envSimpFail "in.onnx" "out.onnx" 14).2 ∧
    Event.checkCall model14c ∈ (convert_model envSimpFail "in.onnx" "out.onnx" 14).2 ∧
    Event.saveCall model14c "out.onnx" ∈ (convert_model envSimpFail "in.onnx" "out.onnx" 14).2 :=
  simplify_failure_recovered envSimpFail "in.onnx" "out.onnx" 14 model17 entry17 []
    model14c [Event.printConverting 14, Event.convertCall model17 14]
    (PyErr.exc "simplify boom") 1048576 1048576 rfl rfl rfl rfl rfl rfl rfl

/-- C4: when `onnx.checker.check_model` raises, the exception is caught,
a warning is traced, the run still returns normally (with save and size
reporting succeeding), and the unique save call receives exactly the
model value that was passed to the validator. -/
theorem validation_failure_recovered
    (env : Env) (ip op : String) (target : Int)
    (m : Model) (e : OpsetEntry) (r : List OpsetEntry)
    (m1 : Model) (tv : List Event) (err : PyErr) (a b : Nat)
    (hload : env.load ip = Except.ok m)
    (hops : m.opset_import = e :: r)
    (hver : versionStage env target m e.version = (Except.ok m1, tv))
    (hchk : env.check_model (simplifyStage env m1).1 = Except.error err)
    (hsave : env.save (simplifyStage env m1).1 op = Except.ok ())
    (hszi : env.getsize ip = Except.ok a)
    (hszo : env.getsize op = Except.ok b) :
    (convert_model env ip op target).1 = Except.ok () ∧
    Event.warnValidationError err ∈ (convert_model env ip op target).2 ∧
    Event.checkCall (simplifyStage env m1).1 ∈ (convert_model env ip op target).2 ∧
    List.filter isSaveCall (convert_model env ip op target).2
      = [Event.saveCall (simplifyStage env m1).1 op] := by
  have hv := filter_save_versionStage env target m e.version
  rw [hver] at hv
  simp only [convert_model, hload, hops, hver, validateStage, hchk,
    saveStage, hsave, statsStage, hszi, hszo]
  refine ⟨by trivial, ?_, ?_, ?_⟩
  · simp
  · simp
  · simp [List.filter_append, hv, filter_save_simplifyStage, isSaveCall]

/-- Like `okEnv` but validation always raises. -/
def envChkFail : Env :=
  { okEnv with check_model := fun _ => Except.error (PyErr.exc "invalid model") }

/-- C4 witness: with validation raising and everything else succeeding,
the run returns normally and the unique save call receives the model the
validator saw. -/
theorem validation_failure_witness :
    (convert_model envChkFail "in.onnx" "out.onnx" 14).1 = Except.ok () ∧
    Event.warnValidationError (PyErr.exc "invalid model")
      ∈ (convert_model envChkFail "in.onnx" "out.onnx" 14).2 ∧
    Event.checkCall (simplifyStage envChkFail model14c).1
      ∈ (convert_model envChkFail "in.onnx" "out.onnx" 14).2 ∧
    List.filter isSaveCall (convert_model envChkFail "in.onnx" "out.onnx" 14).2
      = [Event.saveCall (simplifyStage envChkFail model14c).1 "out.onnx"] :=
  validation_failure_recovered envChkFail "in.onnx" "out.onnx" 14 model17 entry17 []
    model14c [Event.printConverting 14, Event.convertCall model17 14]
    (PyErr.exc "invalid model") 1048576 1048576 rfl rfl rfl rfl rfl rfl rfl

/-- C5: with fewer than 3 `sys.argv` entries (fewer than 2 positional
arguments) the process prints the usage text and exits with code 1, and
no file input or output call appears in the trace. -/
theorem usage_error_exits_one (env : Env) (argv : List String)
    (h : argv.length < 3) :
    pyMain env argv = (Outcome.exited 1, [Event.printUsage]) ∧
    (∀ p, Event.loadCall p ∉ (pyMain env argv).2) ∧
    (∀ mm p, Event.saveCall mm p ∉ (pyMain env argv).2) ∧
    (∀ p, Event.getsizeCall p ∉ (pyMain env argv).2) := by
  have h1 : pyMain env argv = (Outcome.exited 1, [Event.printUsage]) := by
    simp [pyMain, h]
  exact ⟨h1, fun p => by simp [h1], fun mm p => by simp [h1], fun p => by simp [h1]⟩

/-- C5 witness: one positional argument only. -/
theorem usage_error_witness :
    pyMain okEnv ["prog", "in.onnx"] = (Outcome.exited 1, [Event.printUsage]) ∧
    (∀ p, Event.loadCall p ∉ (pyMain okEnv ["prog", "in.onnx"]).2) ∧
    (∀ mm p, Event.saveCall mm p ∉ (pyMain okEnv ["prog", "in.onnx"]).2) ∧
    (∀ p, Event.getsizeCall p ∉ (pyMain okEnv ["prog", "in.onnx"]).2) :=
  usage_error_exits_one okEnv ["prog", "in.onnx"] (by decide)

/-- The target opset computed on line 95: `int(sys.argv[3])` when a
third positional argument is present, else the default 14; `none` means
the `int()` call raised. -/
def targetOfArgv (argv : List String) : Option Int :=
  if argv.length > 3 then pyInt? (argv.getD 3 "") else some 14

/-- C6: the exit code is 1 on a usage error, 1 when the conversion
raises (the top-level handler catches it and calls `sys.exit(1)`), and 0
when the conversion returns normally. -/
theorem exit_code_policy (env : Env) (argv : List String) :
    (argv.length < 3 → pyMain env argv = (Outcome.exited 1, [Event.printUsage])) ∧
    (∀ target : Int, 3 ≤ argv.length → targetOfArgv argv = some target →
      ((convert_model env (argv.getD 1 "") (argv.getD 2 "") target).1 = Except.ok () →
        (pyMain env argv).1 = Outcome.exited 0) ∧
      (∀ err,
        (convert_model env (argv.getD 1 "") (argv.getD 2 "") target).1 = Except.error err →
        (pyMain env argv).1 = Outcome.exited 1)) := by
  refine ⟨fun h => by simp [pyMain, h], fun target h3 htar => ?_⟩
  have hnl : ¬ argv.length < 3 := not_lt.mpr h3
  cases hcm : convert_model env (argv.getD 1 "") (argv.getD 2 "") target with
  | mk rr tt =>
    constructor
    · intro hok
      have hr : rr = Except.ok () := hok
      subst hr
      by_cases h4 : argv.length > 3
      · have ht2 : pyInt? (argv.getD 3 "") = some target := by
          unfold targetOfArgv at htar
          rwa [if_pos h4] at htar
        simp only [pyMain]
        rw [if_neg hnl, if_pos h4]
        simp only [ht2, hcm]
      · have ht14 : target = 14 := by
          unfold targetOfArgv at htar
          rw [if_neg h4] at htar
          exact (Option.some_inj.mp htar).symm
        subst ht14
        simp only [pyMain]
        rw [if_neg hnl, if_neg h4]
        simp only [hcm]
    · intro err herr
      have hr : rr = Except.error err := herr
      subst hr
      by_cases h4 : argv.length > 3
      · have ht2 : pyInt? (argv.getD 3 "") = some target := by
          unfold targetOfArgv at htar
          rwa [if_pos h4] at htar
        simp only [pyMain]
        rw [if_neg hnl, if_pos h4]
        simp only [ht2, hcm]
      · have ht14 : target = 14 := by
          unfold targetOfArgv at htar
          rw [if_neg h4] at htar
          exact (Option.some_inj.mp htar).symm
        subst ht14
        simp only [pyMain]
        rw [if_neg hnl, if_neg h4]
        simp only [hcm]

/-- C6 witness: a successful 2-argument run exits 0. -/
theorem exit_code_witness :
    (pyMain okEnv ["prog", "in.onnx", "out.onnx"]).1 = Outcome.exited 0 :=
  ((exit_code_policy okEnv ["prog", "in.onnx", "out.onnx"]).2 14 (by decide) rfl).1 rfl

/-- C10: an unparseable third positional argument makes `int()` raise
outside the top-level `try`, so the run terminates by the uncaught
`ValueError` with an empty trace: the script's "Error:" handler never
prints and no `sys.exit` happens. -/
theorem bad_opset_arg_uncaught (env : Env) (argv : List String)
    (h4 : 4 ≤ argv.length)
    (hbad : pyInt? (argv.getD 3 "") = none) :
    pyMain env argv = (Outcome.uncaught (PyErr.valueError (argv.getD 3 "")), []) ∧
    (∀ err, Event.printTopError err ∉ (pyMain env argv).2) ∧
    (∀ c, (pyMain env argv).1 ≠ Outcome.exited c) := by
  have hnl : ¬ argv.length < 3 := by omega
  have hg : argv.length > 3 := by omega
  have h1 : pyMain env argv = (Outcome.uncaught (PyErr.valueError (argv.getD 3 "")), []) := by
    simp only [pyMain]
    rw [if_neg hnl, if_pos hg]
    simp only [hbad]
  exact ⟨h1, fun err => by simp [h1], fun c => by simp [h1]⟩

/-- C10 witness: third positional argument "xy". -/
theorem bad_opset_arg_witness :
    pyMain okEnv ["prog", "in.onnx", "out.onnx", "xy"]
      = (Outcome.uncaught (PyErr.valueError "xy"), []) ∧
    (∀ err, Event.printTopError err ∉ (pyMain okEnv ["prog", "in.onnx", "out.onnx", "xy"]).2) ∧
    (∀ c, (pyMain okEnv ["prog", "in.onnx", "out.onnx", "xy"]).1 ≠ Outcome.exited c) :=
  bad_opset_arg_uncaught okEnv ["prog", "in.onnx", "out.onnx", "xy"] (by decide) (by decide)

theorem filter_save_convert_model (env : Env) (ip op : String) (target : Int) :
    List.filter isSaveCall (convert_model env ip op target).2 = [] ∨
    ∃ mm, List.filter isSaveCall (convert_model env ip op target).2
      = [Event.saveCall mm op] := by
  unfold convert_model
  cases hl : env.load ip with
  | error e => left; simp [isSaveCall]
  | ok m0 =>
    dsimp only
    cases hops : m0.opset_import with
    | nil => left; simp [isSaveCall]
    | cons e r =>
      dsimp only
      cases hv : versionStage env target m0 e.version with
      | mk rv tv =>
        have hvf := filter_save_versionStage env target m0 e.version
        rw [hv] at hvf
        cases rv with
        | error e2 =>
          left
          simp [List.filter_append, hvf, isSaveCall]
        | ok m1 =>
          dsimp only
          cases hsv : saveStage env (simplifyStage env m1).1 op with
          | mk rs tw =>
            have hsf := filter_save_saveStage env (simplifyStage env m1).1 op
            rw [hsv] at hsf
            cases rs with
            | error e2 =>
              right
              refine ⟨(simplifyStage env m1).1, ?_⟩
              simp [List.filter_append, hvf, hsf, filter_save_simplifyStage,
                filter_save_validateStage, isSaveCall]
            | ok u =>
              cases hst : statsStage env ip op target with
              | mk rz tz =>
                have htf := filter_save_statsStage env ip op target
                rw [hst] at htf
                right
                refine ⟨(simplifyStage env m1).1, ?_⟩
                simp [List.filter_append, hvf, hsf, htf, filter_save_simplifyStage,
                  filter_save_validateStage, isSaveCall]

/-- C7: the driver writes at most once and only to the output path: any
trace holds at most one save call, every save call targets the output
path, and a run that aborts before the save step (load failure, empty
opset list, or version-conversion failure) holds no save call at all. -/
theorem single_save_no_partial_output (env : Env) (ip op : String) (target : Int) :
    (List.filter isSaveCall (convert_model env ip op target).2).length ≤ 1 ∧
    (∀ mm p, Event.saveCall mm p ∈ (convert_model env ip op target).2 → p = op) ∧
    (∀ err, env.load ip = Except.error err →
      List.filter isSaveCall (convert_model env ip op target).2 = []) ∧
    (∀ m, env.load ip = Except.ok m → m.opset_import = [] →
      List.filter isSaveCall (convert_model env ip op target).2 = []) ∧
    (∀ m e r err, env.load ip = Except.ok m → m.opset_import = e :: r →
      e.version > target → env.convert_version m target = Except.error err →
      List.filter isSaveCall (convert_model env ip op target).2 = []) := by
  have master := filter_save_convert_model env ip op target
  refine ⟨?_, ?_, ?_, ?_, ?_⟩
  · rcases master with h | ⟨mm, h⟩ <;> simp [h]
  · intro mm p hmem
    have hin : Event.saveCall mm p ∈
        List.filter isSaveCall (convert_model env ip op target).2 :=
      List.mem_filter.mpr ⟨hmem, by simp [isSaveCall]⟩
    rcases master with h | ⟨mm2, h⟩
    · rw [h] at hin
      exact absurd hin (List.not_mem_nil _)
    · rw [h] at hin
      have h2 : mm = mm2 ∧ p = op := by simpa using List.mem_singleton.mp hin
      exact h2.2
  · intro err hl
    simp [convert_model, hl, isSaveCall]
  · intro m hl hops
    simp [convert_model, hl, hops, isSaveCall]
  · intro m e r err hl hops hgt hcv
    simp [convert_model, hl, hops, versionStage, if_pos hgt, hcv, isSaveCall]

/-- Like `okEnv` but loading always raises. -/
def envLoadFail : Env :=
  { okEnv with load := fun _ => Except.error (PyErr.exc "no such file") }

/-- C7 witness: a successful run saves at most once, and a run whose
load fails never reaches a save call. -/
theorem single_save_witness :
    (List.filter isSaveCall (convert_model okEnv "in.onnx" "out.onnx" 14).2).length ≤ 1 ∧
    List.filter isSaveCall (convert_model envLoadFail "in.onnx" "out.onnx" 14).2 = [] :=
  ⟨(single_save_no_partial_output okEnv "in.onnx" "out.onnx" 14).1,
   (single_save_no_partial_output envLoadFail "in.onnx" "out.onnx" 14).2.2.1
     (PyErr.exc "no such file") rfl⟩

/-- A model whose `opset_import` list is empty. -/
def modelEmpty : Model := { opset_import := [], payload := 5 }

/-- Like `okEnv` but `load` returns a model with no opset entries. -/
def envEmptyOpset : Env := { okEnv with load := fun _ => Except.ok modelEmpty }

/-- C8: the conversion decision reads only `opset_import[0]`: an empty
list raises `IndexError` directly after loading, before any conversion
step, and with a nonempty list a conversion call occurs exactly when the
first entry's version exceeds the target, whatever the tail holds. -/
theorem opset_decision_first_entry_only (env : Env) (ip op : String) (target : Int) :
    (∀ m, env.load ip = Except.ok m → m.opset_import = [] →
      convert_model env ip op target
        = (Except.error PyErr.indexError, [Event.printLoading ip, Event.loadCall ip])) ∧
    (∀ m e r, env.load ip = Except.ok m → m.opset_import = e :: r →
      ((∃ mm v, Event.convertCall mm v ∈ (convert_model env ip op target).2) ↔
        e.version > target)) := by
  constructor
  · intro m hl hops
    simp [convert_model, hl, hops]
  · intro m e r hl hops
    constructor
    · rintro ⟨mm, v, hmem⟩
      by_contra hng
      have hle : e.version ≤ target := not_lt.mp hng
      have hfil := (convertFree_of_le env ip op target m e r hl hops hle).1
      have hin : Event.convertCall mm v ∈
          List.filter isConvertCall (convert_model env ip op target).2 :=
        List.mem_filter.mpr ⟨hmem, by simp [isConvertCall]⟩
      rw [hfil] at hin
      exact absurd hin (List.not_mem_nil _)
    · intro hgt
      have hfil := convertOnce_of_gt env ip op target m e r hl hops hgt
      refine ⟨m, target, ?_⟩
      have hin : Event.convertCall m target ∈
          List.filter isConvertCall (convert_model env ip op target).2 := by
        rw [hfil]
        simp
      exact List.mem_of_mem_filter hin

/-- C8 witness: the empty-opset model aborts with `IndexError` right
after loading; with the opset-17 model and target 14 the decision is
read off the first entry. -/
theorem opset_decision_witness :
    convert_model envEmptyOpset "in.onnx" "out.onnx" 14
      = (Except.error PyErr.indexError,
         [Event.printLoading "in.onnx", Event.loadCall "in.onnx"]) ∧
    ((∃ mm v, Event.convertCall mm v
        ∈ (convert_model okEnv "in.onnx" "out.onnx" 14).2) ↔ entry17.version > 14) :=
  ⟨(opset_decision_first_entry_only envEmptyOpset "in.onnx" "out.onnx" 14).1
      modelEmpty rfl rfl,
   (opset_decision_first_entry_only okEnv "in.onnx" "out.onnx" 14).2
      model17 entry17 [] rfl rfl⟩

/-- Recognizer for the two prints of the simplification `except` branch,
used to state that the exception handler never ran. -/
def isSimplifyCatch : Event → Bool
  | Event.warnSimplifyError _ => true
  | Event.printContinuingUnsimplified => true
  | _ => false

theorem filter_catch_versionStage (env : Env) (target : Int) (m : Model) (v : Int) :
    List.filter isSimplifyCatch (versionStage env target m v).2 = [] := by
  unfold versionStage
  by_cases h : v > target
  · rw [if_pos h]
    cases hc : env.convert_version m target <;> simp [isSimplifyCatch]
  · rw [if_neg h]
    simp

theorem filter_catch_validateStage (env : Env) (m : Model) :
    List.filter isSimplifyCatch (validateStage env m) = [] := by
  unfold validateStage
  cases h : env.check_model m <;> simp [isSimplifyCatch]

theorem filter_catch_saveStage (env : Env) (m : Model) (p : String) :
    List.filter isSimplifyCatch (saveStage env m p).2 = [] := by
  unfold saveStage
  cases h : env.save m p <;> simp [isSimplifyCatch]

theorem filter_catch_statsStage (env : Env) (ip op : String) (v : Int) :
    List.filter isSimplifyCatch (statsStage env ip op v).2 = [] := by
  unfold statsStage
  cases h : env.getsize ip with
  | error e => simp [isSimplifyCatch]
  | ok a => cases h2 : env.getsize op <;> simp [isSimplifyCatch]

theorem saveCall_mem_saveStage (env : Env) (m : Model) (p : String) :
    Event.saveCall m p ∈ (saveStage env m p).2 := by
  unfold saveStage
  cases h : env.save m p <;> simp

theorem checkCall_mem_validateStage (env : Env) (m : Model) :
    Event.checkCall m ∈ validateStage env m := by
  unfold validateStage
  cases h : env.check_model m <;> simp

/-- C9: when `onnxsim.simplify` returns with its check flag false, only
the check-failed warning is printed (the `except` branch never runs) and
the run proceeds to validation and save with the simplified model the
call returned. -/
theorem simplify_check_false_continues
    (env : Env) (ip op : String) (target : Int)
    (m : Model) (e : OpsetEntry) (r : List OpsetEntry)
    (m1 m2 : Model) (tv : List Event)
    (hload : env.load ip = Except.ok m)
    (hops : m.opset_import = e :: r)
    (hver : versionStage env target m e.version = (Except.ok m1, tv))
    (hsimp : env.simplify m1 = Except.ok (m2, false)) :
    Event.printSimplifyCheckFailed ∈ (convert_model env ip op target).2 ∧
    List.filter isSimplifyCatch (convert_model env ip op target).2 = [] ∧
    Event.checkCall m2 ∈ (convert_model env ip op target).2 ∧
    Event.saveCall m2 op ∈ (convert_model env ip op target).2 := by
  have hvf := filter_catch_versionStage env target m e.version
  rw [hver] at hvf
  simp only [convert_model, hload, hops, hver, simplifyStage, hsimp]
  cases hsv : saveStage env m2 op with
  | mk rs tw =>
    have hwm := saveCall_mem_saveStage env m2 op
    rw [hsv] at hwm
    have hwf := filter_catch_saveStage env m2 op
    rw [hsv] at hwf
    have hcm := checkCall_mem_validateStage env m2
    cases rs with
    | error e2 =>
      refine ⟨by simp, ?_, by simp [hcm], by simp [hwm]⟩
      simp [List.filter_append, hvf, hwf, filter_catch_validateStage, isSimplifyCatch]
    | ok u =>
      cases hst : statsStage env ip op target with
      | mk rz tz =>
        have htf := filter_catch_statsStage env ip op target
        rw [hst] at htf
        refine ⟨by simp, ?_, by simp [hcm], by simp [hwm]⟩
        simp [List.filter_append, hvf, hwf, htf, filter_catch_validateStage, isSimplifyCatch]

/-- Like `okEnv` but simplification reports a false check flag. -/
def envCheckFalse : Env :=
  { okEnv with simplify := fun m => Except.ok ({ m with payload := m.payload + 1000 }, false) }

/-- The simplified model `envCheckFalse` produces from `model14c`. -/
def model14s : Model := { opset_import := [{ domain := "", version := 14 }], payload := 1100 }

/-- C9 witness: with a false check flag, the simplified model reaches
validation and save, and the exception handler never ran. -/
theorem simplify_check_false_witness :
    Event.printSimplifyCheckFailed ∈ (convert_model envCheckFalse "in.onnx" "out.onnx" 14).2 ∧
    List.filter isSimplifyCatch (convert_model envCheckFalse "in.onnx" "out.onnx" 14).2 = [] ∧
    Event.checkCall model14s ∈ (convert_model envCheckFalse "in.onnx" "out.onnx" 14).2 ∧
    Event.saveCall model14s "out.onnx" ∈ (convert_model envCheckFalse "in.onnx" "out.onnx" 14).2 :=
  simplify_check_false_continues envCheckFalse "in.onnx" "out.onnx" 14 model17 entry17 []
    model14c model14s [Event.printConverting 14, Event.convertCall model17 14]
    rfl rfl rfl rfl
